import Mathlib

/-!
Verification of `src/recorder.py` (noise_recorder).

The file shallowly embeds the recorder: the Session Registry (`Recorder`),
the per-device Capture Pipeline (`RecordingSession`, its writer loop and
delivery callback), the device-name sanitizer, and the exclusive-create
file-open step.  Python exceptions are modelled explicitly by `PyExn`,
because two of the properties hinge on which concrete exception class a
library call raises and which `except` clause catches it.
-/

namespace NoiseRecorder

/-- Python exception classes that can arise in `recorder.py`.

CPython facts used by the model (documented library behaviour):
* `queue.Queue.get(timeout=...)` raises `queue.Empty` when no item arrives
  in time; `queue.Empty` derives from `Exception`, not from `TimeoutError`.
* `AttributeError` is raised when an attribute lookup on an object fails.
* `soundfile.SoundFile(..., mode="x")` raises when the path already exists
  (exclusive creation). -/
inductive PyExn
  | runtimeErrorAlreadyRecording
  | queueEmpty
  | timeoutError
  | attributeError
  | fileExistsError
deriving DecidableEq, Repr

/-- Which exceptions the clause `except TimeoutError:` (line 82) handles:
exactly instances of `TimeoutError`.  `queue.Empty` is not one. -/
def catchesTimeoutError : PyExn → Bool
  | .timeoutError => true
  | _ => false

/-- Whether an `Except` result is a normal (non-raising) return. -/
def exceptIsOk {ε α : Type} : Except ε α → Bool
  | .ok _ => true
  | .error _ => false

/-- Observable status of a session thread (running, returned cleanly at
line 87, or returned after the handler at lines 84-86). -/
inductive SessionStatus
  | running
  | finishedOk
  | abortedErr
deriving DecidableEq, Repr

/-- One `_RecordingSession` as tracked by the registry: its constructor
arguments (lines 27-35), its `_exit` flag, and its thread status. -/
structure Session where
  noiseName : String
  deviceIndex : Nat
  exitFlag : Bool
  status : SessionStatus
deriving DecidableEq, Repr

/-- `_RecordingSession.stop` (lines 37-43): set the `_exit` flag. -/
def Session.stop (s : Session) : Session := { s with exitFlag := true }

/-- A freshly constructed, started session (lines 27-35 plus
`session.start()`): `_exit` is `False`, the thread is running. -/
def Session.init (noiseName : String) (deviceIndex : Nat) : Session :=
  { noiseName := noiseName, deviceIndex := deviceIndex,
    exitFlag := false, status := .running }

/-- The Session Registry, class `Recorder` (lines 116-156): the list
`self._recording_threads`.  `self._lock` serializes `record`, `recording`
and `stop`; the model gives the serialized semantics directly, so the lock
itself carries no state. -/
structure Recorder where
  recordingThreads : List Session
deriving DecidableEq, Repr

/-- `Recorder.record` (lines 123-133).  The enumerator `input_devices()` is
an environment input, passed as the list of valid input-device indices.
If `self._recording_threads` is non-empty (Python truthiness of the list),
`RuntimeError` is raised before `input_devices()` is ever called; otherwise
one session per enumerated device is constructed, appended and started. -/
def Recorder.record (r : Recorder) (noiseName : String) (devices : List Nat) :
    Except PyExn Recorder :=
  match r.recordingThreads with
  | _ :: _ => .error .runtimeErrorAlreadyRecording
  | [] => .ok ⟨devices.map (fun i => Session.init noiseName i)⟩

/-- The registry state after a call to `record`: a raise leaves the Python
object untouched, a normal return leaves the updated object. -/
def recordPost (r : Recorder) (noiseName : String) (devices : List Nat) : Recorder :=
  match r.record noiseName devices with
  | .ok r' => r'
  | .error _ => r

/-- `Recorder.recording` (lines 135-138): `bool(self._recording_threads)`. -/
def Recorder.recording (r : Recorder) : Bool :=
  !r.recordingThreads.isEmpty

/-- `Recorder.stop` (lines 140-147): signal every session, join each with a
1-second timeout (a wait, no registry-state change), then unconditionally
reassign `self._recording_threads = []`. -/
def Recorder.stop (r : Recorder) : Recorder :=
  let _signalled := r.recordingThreads.map Session.stop
  ⟨[]⟩

/-- C1: starting while the active set is non-empty raises
`RuntimeError` ("Already recording") for every possible device enumeration
— so before any device is enumerated or any pipeline is created — and the
registry state, pipelines and count included, is exactly the old one. -/
theorem C1_start_while_recording (r : Recorder) (h : r.recordingThreads ≠ [])
    (noiseName : String) (devices : List Nat) :
    r.record noiseName devices = .error .runtimeErrorAlreadyRecording ∧
    recordPost r noiseName devices = r := by
  obtain ⟨threads⟩ := r
  match threads, h with
  | t :: ts, _ =>
    refine ⟨rfl, ?_⟩
    simp [recordPost, Recorder.record]

theorem C1_start_while_recording_witness :
    (Recorder.mk [Session.init "beep" 0]).recordingThreads ≠ [] ∧
    ((Recorder.mk [Session.init "beep" 0]).record "hum" [1, 2] =
        .error .runtimeErrorAlreadyRecording ∧
      recordPost (Recorder.mk [Session.init "beep" 0]) "hum" [1, 2] =
        Recorder.mk [Session.init "beep" 0]) :=
  ⟨by decide,
    C1_start_while_recording (Recorder.mk [Session.init "beep" 0])
      (by decide) "hum" [1, 2]⟩

/-- C3: after `Recorder.stop` the active set is empty and `recording`
reports `false`, for every starting state — in particular irrespective of
the sessions' exit flags or thread statuses, i.e. also when join timed out
on unfinished pipelines. -/
theorem C3_stop_always_clears (r : Recorder) :
    (r.stop).recordingThreads = [] ∧ (r.stop).recording = false :=
  ⟨rfl, rfl⟩

/-- C9: stopping an idle registry returns normally and leaves the set
empty, and at registry level `stop` is idempotent: a second `stop` yields
the same state as the first. -/
theorem C9_stop_idempotent (r : Recorder) :
    (Recorder.mk []).stop = Recorder.mk [] ∧ r.stop.stop = r.stop :=
  ⟨rfl, rfl⟩

/-- A registry-level call: `record(noiseName)` with the device indices the
enumerator yields at that moment, or `stop()`. -/
inductive Op
  | startOp (noiseName : String) (devices : List Nat)
  | stopOp
deriving DecidableEq, Repr

/-- Effect of one call on the registry state (a raised `RuntimeError` leaves the
object unchanged, per `recordPost`). -/
def stepOp (r : Recorder) : Op → Recorder
  | .startOp n ds => recordPost r n ds
  | .stopOp => r.stop

/-- Run a sequence of calls from the freshly constructed registry
(`__init__`, lines 119-121: empty list). -/
def execOps (ops : List Op) : Recorder :=
  ops.foldl stepOp ⟨[]⟩

/-- The history predicate of the claim — "some Start has returned
successfully and no subsequent Stop has been called" — evaluated along the
actual execution: the flag is set when a `record` call returns normally and
reset by every `stop`. -/
def startedFlagAux : Recorder → Bool → List Op → Bool
  | _, flag, [] => flag
  | r, _flag, .stopOp :: ops => startedFlagAux (stepOp r .stopOp) false ops
  | r, flag, .startOp n ds :: ops =>
      startedFlagAux (stepOp r (.startOp n ds))
        (flag || exceptIsOk (r.record n ds)) ops

/-- The history predicate over a call sequence from the initial state. -/
def startedFlag (ops : List Op) : Bool :=
  startedFlagAux ⟨[]⟩ false ops

/-- Whether a call enumerates at least one device (`stop` trivially so). -/
def opHasDevice : Op → Bool
  | .startOp _ ds => !ds.isEmpty
  | .stopOp => true

theorem startedFlagAux_spec (ops : List Op) :
    ∀ (r : Recorder) (flag : Bool), ops.all opHasDevice = true →
      r.recording = flag →
      (ops.foldl stepOp r).recording = startedFlagAux r flag ops := by
  induction ops with
  | nil => intro r flag _ h; simpa [startedFlagAux] using h
  | cons op ops ih =>
    intro r flag hall h
    rw [List.all_cons, Bool.and_eq_true] at hall
    cases op with
    | stopOp =>
      show (ops.foldl stepOp (stepOp r .stopOp)).recording =
        startedFlagAux (stepOp r .stopOp) false ops
      exact ih _ false hall.2 rfl
    | startOp n ds =>
      show (ops.foldl stepOp (stepOp r (.startOp n ds))).recording = _
      refine ih _ _ hall.2 ?_
      obtain ⟨threads⟩ := r
      cases threads with
      | nil =>
        have hflag : flag = false := by
          simpa [Recorder.recording] using h.symm
        cases ds with
        | nil => simp [opHasDevice] at hall
        | cons d ds' =>
          simp [stepOp, recordPost, Recorder.record, Recorder.recording,
            exceptIsOk, hflag]
      | cons t ts =>
        have hflag : flag = true := by
          simpa [Recorder.recording] using h.symm
        simp [stepOp, recordPost, Recorder.record, Recorder.recording,
          exceptIsOk, hflag]

/-- C2 as stated is false on the code: `record` with an empty device
enumeration returns successfully yet creates no session, so after the
single successful Start (and no Stop) `recording` is already `false`. -/
theorem C2_counterexample :
    (execOps [Op.startOp "t" []]).recording = false ∧
    startedFlag [Op.startOp "t" []] = true :=
  ⟨rfl, rfl⟩

/-- C2 amended: for every sequence of Start/Stop calls from the initial
empty registry in which each Start enumerates at least one input device,
`recording` is `true` iff some Start returned successfully and no
subsequent Stop was called. -/
theorem C2_amended_recording_iff_started (ops : List Op)
    (h : ops.all opHasDevice = true) :
    (execOps ops).recording = startedFlag ops :=
  startedFlagAux_spec ops ⟨[]⟩ false h rfl

theorem C2_amended_recording_iff_started_witness :
    ([Op.startOp "a" [0, 1], Op.stopOp, Op.startOp "b" [2]].all opHasDevice
        = true) ∧
    (execOps [Op.startOp "a" [0, 1], Op.stopOp, Op.startOp "b" [2]]).recording
      = startedFlag [Op.startOp "a" [0, 1], Op.stopOp, Op.startOp "b" [2]] :=
  ⟨by decide,
    C2_amended_recording_iff_started
      [Op.startOp "a" [0, 1], Op.stopOp, Op.startOp "b" [2]] (by decide)⟩

/-- Update the status of the i-th tracked session. -/
def setStatusAt : List Session → Nat → SessionStatus → List Session
  | [], _, _ => []
  | s :: rest, 0, st => { s with status := st } :: rest
  | s :: rest, i + 1, st => s :: setStatusAt rest i st

/-- A session thread terminating on its own — `run` returning either at
line 86 (after the `except` handler reported an error) or at line 87
(clean finish).  `run` holds no reference to the owning `Recorder`, so the
only observable change is that thread's status. -/
def threadExit (r : Recorder) (i : Nat) (st : SessionStatus) : Recorder :=
  ⟨setStatusAt r.recordingThreads i st⟩

/-- Any number of sessions terminating on their own, in any order. -/
def applyExits (r : Recorder) (exits : List (Nat × SessionStatus)) : Recorder :=
  exits.foldl (fun r' e => threadExit r' e.1 e.2) r

theorem setStatusAt_length (l : List Session) (i : Nat) (st : SessionStatus) :
    (setStatusAt l i st).length = l.length := by
  induction l generalizing i with
  | nil => rfl
  | cons s rest ih =>
    cases i with
    | zero => rfl
    | succ j => simp [setStatusAt, ih]

theorem isEmpty_of_length_eq {α β : Type} {l : List α} {m : List β}
    (h : l.length = m.length) : l.isEmpty = m.isEmpty := by
  cases l <;> cases m <;> simp_all

/-- C10: pipelines that terminate on their own never remove themselves from
the registry's active set — any sequence of self-terminations (in
particular all of them) leaves the tracked count unchanged and `recording`
unchanged, so it stays `true` until `stop` is called. -/
theorem C10_self_termination_keeps_registry (r : Recorder)
    (exits : List (Nat × SessionStatus)) :
    (applyExits r exits).recordingThreads.length
        = r.recordingThreads.length ∧
    (applyExits r exits).recording = r.recording := by
  induction exits generalizing r with
  | nil => exact ⟨rfl, rfl⟩
  | cons e rest ih =>
    have hstep : applyExits r (e :: rest) = applyExits (threadExit r e.1 e.2) rest := rfl
    have h1 : (threadExit r e.1 e.2).recordingThreads.length
        = r.recordingThreads.length := setStatusAt_length _ _ _
    obtain ⟨hl, hr⟩ := ih (threadExit r e.1 e.2)
    rw [hstep]
    refine ⟨hl.trans h1, hr.trans ?_⟩
    simp only [Recorder.recording]
    rw [isEmpty_of_length_eq h1]

/-- A sample buffer: an abstract tag standing for one `indata.copy()`. -/
abbrev Buffer := Nat

/-- Asynchronous events acting on one running session: the audio callback
(lines 89-94) delivering (copying and enqueuing) a buffer, or
`_RecordingSession.stop` (line 43) setting the `_exit` flag. -/
inductive Ev
  | deliver (b : Buffer)
  | requestStop
deriving DecidableEq, Repr

/-- The state the writer loop of one session sees: the `_exit` flag, the
FIFO `_chunk_queue` (head = next to pop), and the buffers written so far
to the SoundFile, in order. -/
structure LoopState where
  exitFlag : Bool
  chunkQueue : List Buffer
  written : List Buffer
deriving DecidableEq, Repr

/-- State of a session before `run` enters its while-loop. -/
def initLoop : LoopState := ⟨false, [], []⟩

/-- Apply one asynchronous event: `callback` does `put` at the back of the
FIFO queue (line 94); `stop` sets the flag (line 43). -/
def applyEv (s : LoopState) : Ev → LoopState
  | .deliver b => { s with chunkQueue := s.chunkQueue ++ [b] }
  | .requestStop => { s with exitFlag := true }

/-- `self._chunk_queue.get(timeout=3)` (line 81): the queue's head, or —
after a 3-second timeout with nothing enqueued — the `queue.Empty`
exception (CPython's documented behaviour; not `TimeoutError`). -/
def queueGet : List Buffer → Except PyExn (Buffer × List Buffer)
  | [] => .error .queueEmpty
  | b :: rest => .ok (b, rest)

/-- How one iteration of the while-loop left the control flow. -/
inductive LoopOutcome
  | runningL
  | finishedL
  | abortedL (e : PyExn)
deriving DecidableEq, Repr

/-- One iteration of `while not self._exit` (lines 79-83): test the flag;
otherwise pop with timeout and write the popped buffer; an exception from
the pop is swallowed only if the clause `except TimeoutError` matches it,
else it escapes to the outer handler (lines 84-86) and the pipeline
aborts. -/
def loopIter (s : LoopState) : LoopState × LoopOutcome :=
  if s.exitFlag then (s, .finishedL)
  else
    match queueGet s.chunkQueue with
    | .ok (b, rest) =>
        ({ s with chunkQueue := rest, written := s.written ++ [b] }, .runningL)
    | .error e =>
        if catchesTimeoutError e then (s, .runningL) else (s, .abortedL e)

/-- Run the writer loop against a schedule of event batches, one batch
applied before each iteration (deliveries and stop requests happen
asynchronously between iterations).  An exhausted schedule leaves the loop
still running. -/
def loopRun : List (List Ev) → LoopState → LoopState × LoopOutcome
  | [], s => (s, .runningL)
  | evs :: sched, s =>
    match loopIter (evs.foldl applyEv s) with
    | (s2, .runningL) => loopRun sched s2
    | (s2, .finishedL) => (s2, .finishedL)
    | (s2, .abortedL e) => (s2, .abortedL e)

theorem loopIter_exit {s : LoopState} (h : s.exitFlag = true) :
    loopIter s = (s, .finishedL) := by
  simp [loopIter, h]

theorem loopIter_emptyq {s : LoopState} (h : s.exitFlag = false)
    (hq : s.chunkQueue = []) :
    loopIter s = (s, .abortedL .queueEmpty) := by
  simp [loopIter, h, hq, queueGet, catchesTimeoutError]

theorem loopIter_pop {s : LoopState} {b : Buffer} {rest : List Buffer}
    (h : s.exitFlag = false) (hq : s.chunkQueue = b :: rest) :
    loopIter s
      = ({ s with chunkQueue := rest, written := s.written ++ [b] },
          .runningL) := by
  simp [loopIter, h, hq, queueGet]

theorem loopRun_cons_running {evs : List Ev} {sched : List (List Ev)}
    {s s2 : LoopState} (h : loopIter (evs.foldl applyEv s) = (s2, .runningL)) :
    loopRun (evs :: sched) s = loopRun sched s2 := by
  simp only [loopRun]
  rw [h]

theorem loopRun_cons_halt {evs : List Ev} {sched : List (List Ev)}
    {s s2 : LoopState} {o : LoopOutcome}
    (h : loopIter (evs.foldl applyEv s) = (s2, o)) (ho : o ≠ .runningL) :
    loopRun (evs :: sched) s = (s2, o) := by
  simp only [loopRun]
  rw [h]
  cases o with
  | runningL => exact absurd rfl ho
  | finishedL => rfl
  | abortedL e => rfl

/-- The buffers a batch of events delivers, in order. -/
def deliveredBatch : List Ev → List Buffer
  | [] => []
  | .deliver b :: evs => b :: deliveredBatch evs
  | .requestStop :: evs => deliveredBatch evs

/-- All buffers a schedule delivers, in order. -/
def deliveredList (sched : List (List Ev)) : List Buffer :=
  (sched.map deliveredBatch).flatten

theorem foldl_applyEv_written (evs : List Ev) (s : LoopState) :
    (evs.foldl applyEv s).written = s.written := by
  induction evs generalizing s with
  | nil => rfl
  | cons e evs ih => cases e <;> simp [applyEv, ih]

theorem foldl_applyEv_exit (evs : List Ev) (s : LoopState) :
    (evs.foldl applyEv s).exitFlag = (s.exitFlag || evs.contains .requestStop) := by
  induction evs generalizing s with
  | nil => simp
  | cons e evs ih =>
    cases e with
    | deliver b => simp [applyEv, ih, List.contains_cons]
    | requestStop => simp [applyEv, ih, List.contains_cons]

theorem foldl_applyEv_queue (evs : List Ev) (s : LoopState) :
    (evs.foldl applyEv s).chunkQueue = s.chunkQueue ++ deliveredBatch evs := by
  induction evs generalizing s with
  | nil => simp [deliveredBatch]
  | cons e evs ih =>
    cases e with
    | deliver b => simp [applyEv, ih, deliveredBatch]
    | requestStop => simp [applyEv, ih, deliveredBatch]

theorem loopRun_written_queue (sched : List (List Ev)) (s : LoopState) :
    ∃ k, (loopRun sched s).1.written ++ (loopRun sched s).1.chunkQueue
      = s.written ++ s.chunkQueue ++ (deliveredList sched).take k := by
  induction sched generalizing s with
  | nil => exact ⟨0, by simp [loopRun]⟩
  | cons evs sched ih =>
    have hw := foldl_applyEv_written evs s
    have hq := foldl_applyEv_queue evs s
    have hbatch : (deliveredList (evs :: sched)).take (deliveredBatch evs).length
        = deliveredBatch evs := by
      simp [deliveredList]
    set s1 := evs.foldl applyEv s with hs1
    by_cases hex : s1.exitFlag
    · refine ⟨(deliveredBatch evs).length, ?_⟩
      have hrun : loopRun (evs :: sched) s = (s1, .finishedL) :=
        loopRun_cons_halt (loopIter_exit hex) (by simp)
      rw [hrun, hbatch]
      simp [hw, hq, List.append_assoc]
    · rw [Bool.not_eq_true] at hex
      cases hqq : s1.chunkQueue with
      | nil =>
        refine ⟨(deliveredBatch evs).length, ?_⟩
        have hrun : loopRun (evs :: sched) s = (s1, .abortedL .queueEmpty) :=
          loopRun_cons_halt (loopIter_emptyq hex hqq) (by simp)
        rw [hrun, hbatch]
        simp [hw, hq, List.append_assoc]
      | cons b rest =>
        have hrun : loopRun (evs :: sched) s =
            loopRun sched { s1 with chunkQueue := rest, written := s1.written ++ [b] } :=
          loopRun_cons_running (loopIter_pop hex hqq)
        obtain ⟨k, hk⟩ := ih { s1 with chunkQueue := rest, written := s1.written ++ [b] }
        refine ⟨(deliveredBatch evs).length + k, ?_⟩
        have htk : ((deliveredBatch evs) ++ (deliveredList sched)).take
              ((deliveredBatch evs).length + k)
            = deliveredBatch evs ++ (deliveredList sched).take k :=
          List.take_append k
        have htk2 : (deliveredList (evs :: sched)).take
              ((deliveredBatch evs).length + k)
            = deliveredBatch evs ++ (deliveredList sched).take k := by
          simpa [deliveredList] using htk
        rw [hrun, hk, htk2]
        have hsplit : s.chunkQueue ++ deliveredBatch evs = b :: rest := by
          rw [← hq, hqq]
        show s1.written ++ [b] ++ rest ++ (deliveredList sched).take k
            = s.written ++ s.chunkQueue
              ++ (deliveredBatch evs ++ (deliveredList sched).take k)
        calc s1.written ++ [b] ++ rest ++ (deliveredList sched).take k
            = s.written ++ (b :: rest) ++ (deliveredList sched).take k := by
              rw [hw]; simp
          _ = s.written ++ (s.chunkQueue ++ deliveredBatch evs)
                ++ (deliveredList sched).take k := by rw [hsplit]
          _ = s.written ++ s.chunkQueue
                ++ (deliveredBatch evs ++ (deliveredList sched).take k) := by
              simp [List.append_assoc]

theorem loopRun_finished_exit (sched : List (List Ev)) (s : LoopState) :
    (loopRun sched s).2 = .finishedL → (loopRun sched s).1.exitFlag = true := by
  induction sched generalizing s with
  | nil => intro h; simp [loopRun] at h
  | cons evs sched ih =>
    intro h
    set s1 := evs.foldl applyEv s with hs1
    by_cases hex : s1.exitFlag
    · have hrun : loopRun (evs :: sched) s = (s1, .finishedL) :=
        loopRun_cons_halt (loopIter_exit hex) (by decide)
      rw [hrun]
      exact hex
    · rw [Bool.not_eq_true] at hex
      cases hqq : s1.chunkQueue with
      | nil =>
        have hrun : loopRun (evs :: sched) s = (s1, .abortedL .queueEmpty) :=
          loopRun_cons_halt (loopIter_emptyq hex hqq) (by decide)
        rw [hrun] at h
        simp at h
      | cons b rest =>
        have hrun : loopRun (evs :: sched) s =
            loopRun sched { s1 with chunkQueue := rest, written := s1.written ++ [b] } :=
          loopRun_cons_running (loopIter_pop hex hqq)
        rw [hrun] at h ⊢
        exact ih _ h

/-- C4 as stated is false on the code: the while-loop tests `_exit` before
each pop, so a stop request that lands together with a pending buffer makes
the loop terminate cleanly with that pre-stop buffer still queued and never
written — the queue is not drained. -/
theorem C4_counterexample :
    loopRun [[Ev.deliver 0, Ev.requestStop]] initLoop
      = (⟨true, [0], []⟩, LoopOutcome.finishedL) := rfl

/-- C4 amended: the writer loop terminates cleanly only once the stop flag
is observed, but without draining the queue: at any point, the buffers
written followed by the buffers still queued are exactly an initial
segment of the delivered sequence — so every written buffer was delivered
and is written exactly once, in delivery order, with no duplication or
reordering, while buffers still queued when the flag is observed are
dropped rather than written. -/
theorem eq_take_of_append_eq_take {α : Type} {w q d : List α} {k : Nat}
    (h : w ++ q = d.take k) : w = d.take (min w.length k) := by
  have h1 : w = (w ++ q).take w.length := (List.take_left w q).symm
  rw [h] at h1
  nth_rewrite 1 [h1]
  rw [List.take_take]

theorem C4_amended_write_order (sched : List (List Ev)) :
    (∃ k, (loopRun sched initLoop).1.written
        ++ (loopRun sched initLoop).1.chunkQueue
        = (deliveredList sched).take k) ∧
    (∃ j, (loopRun sched initLoop).1.written = (deliveredList sched).take j) ∧
    ((loopRun sched initLoop).2 = .finishedL →
      (loopRun sched initLoop).1.exitFlag = true) := by
  obtain ⟨k, hk⟩ := loopRun_written_queue sched initLoop
  rw [show initLoop.written = [] from rfl,
    show initLoop.chunkQueue = [] from rfl] at hk
  rw [List.nil_append, List.nil_append] at hk
  exact ⟨⟨k, hk⟩, ⟨_, eq_take_of_append_eq_take hk⟩,
    loopRun_finished_exit sched initLoop⟩

/-- C5 is the intent, but the code aborts: with the stop flag unset and the
queue empty, the 3-second `Queue.get` timeout raises `queue.Empty`, which
the clause `except TimeoutError` does not catch (`queue.Empty` is not a
`TimeoutError`), so the exception escapes to the outer handler and the
pipeline aborts instead of re-checking the flag and continuing. -/
theorem C5_empty_timeout_aborts :
    loopRun [[]] initLoop = (initLoop, LoopOutcome.abortedL PyExn.queueEmpty)
      ∧ catchesTimeoutError PyExn.queueEmpty = false :=
  ⟨rfl, rfl⟩

/-- The attribute names a `Recorder` instance carries: the methods defined
on the class (lines 119-156) and the fields assigned in `__init__`
(lines 120-121). -/
def recorderAttributes : List String :=
  ["__init__", "record", "recording", "stop", "__del__",
    "_recording_threads", "_lock"]

/-- Calling `self.<name>()` for a zero-argument attribute of `Recorder`:
the lookup raises `AttributeError` when the instance carries no such
attribute; `stop` is the one zero-argument state-changing method. -/
def Recorder.invoke0 (r : Recorder) (name : String) : Except PyExn Recorder :=
  if recorderAttributes.contains name then
    .ok (if name = "stop" then r.stop else r)
  else .error .attributeError

/-- `Recorder.__del__` (lines 149-156): `try: self._stop() except: pass`.
The class defines no attribute `_stop` (see `recorderAttributes`), so the
call raises `AttributeError` inside the `try`; the bare `except` swallows
it and the destructor returns with the registry state untouched. -/
def Recorder.delMethod (r : Recorder) : Recorder :=
  match r.invoke0 "_stop" with
  | .ok r' => r'
  | .error _ => r

/-- C6 is the intent, but the code does not attempt the Stop sequence on
teardown: `self._stop()` names an attribute the class does not define (the
method is `stop`), so the destructor raises `AttributeError` at once, the
bare `except` swallows it (nothing escapes — that half of the claim holds),
and the active session is never signalled, joined, or dropped: `recording`
stays `true`, whereas the documented Stop sequence would leave it `false`. -/
theorem C6_del_does_not_stop :
    (Recorder.mk [Session.init "beep" 0]).invoke0 "_stop"
        = .error .attributeError ∧
    (Recorder.mk [Session.init "beep" 0]).delMethod
        = Recorder.mk [Session.init "beep" 0] ∧
    (Recorder.mk [Session.init "beep" 0]).delMethod.recording = true ∧
    (Recorder.mk [Session.init "beep" 0]).stop.recording = false :=
  ⟨rfl, rfl, rfl, rfl⟩

/-- The files the pipeline can see on disk: each path with the buffers
appended to it so far. -/
structure FileSys where
  files : List (String × List Buffer)
deriving DecidableEq, Repr

/-- `soundfile.SoundFile(file_name, mode="x", samplerate=16000,
channels=1)` (lines 69-71): `mode="x"` is exclusive creation — raise if
the path already exists, else create an empty container there. -/
def soundFileCreateX (fs : FileSys) (path : String) : Except PyExn FileSys :=
  if path ∈ fs.files.map Prod.fst then .error .fileExistsError
  else .ok ⟨(path, []) :: fs.files⟩

/-- How the open step left the pipeline. -/
inductive RunOutcome
  | proceeded
  | abortedRun
deriving DecidableEq, Repr

/-- The file-opening step of `_RecordingSession.run` inside its `try`
(lines 68-71): a raise from the exclusive-mode open reaches the handler at
lines 84-86, which reports the path and cause and returns — the pipeline
aborts with the filesystem exactly as it was. -/
def runOpenPhase (fs : FileSys) (fileName : String) : FileSys × RunOutcome :=
  match soundFileCreateX fs fileName with
  | .ok fs' => (fs', .proceeded)
  | .error _ => (fs, .abortedRun)

/-- C8: when the generated output name already exists at creation time,
the exclusive-mode open fails with the creation error and the pipeline
aborts; the filesystem — the colliding file and its contents included —
is left exactly as before, never silently overwritten. -/
theorem C8_exclusive_create_no_overwrite (fs : FileSys) (fileName : String)
    (h : fileName ∈ fs.files.map Prod.fst) :
    soundFileCreateX fs fileName = .error .fileExistsError ∧
    runOpenPhase fs fileName = (fs, .abortedRun) := by
  constructor
  · simp [soundFileCreateX, h]
  · simp [runOpenPhase, soundFileCreateX, h]

theorem C8_exclusive_create_no_overwrite_witness :
    "noise_recordings/mic/beep_x1.flac" ∈
      (FileSys.mk [("noise_recordings/mic/beep_x1.flac", [5])]).files.map
        Prod.fst ∧
    (soundFileCreateX (FileSys.mk [("noise_recordings/mic/beep_x1.flac", [5])])
        "noise_recordings/mic/beep_x1.flac" = .error .fileExistsError ∧
      runOpenPhase (FileSys.mk [("noise_recordings/mic/beep_x1.flac", [5])])
          "noise_recordings/mic/beep_x1.flac"
        = (FileSys.mk [("noise_recordings/mic/beep_x1.flac", [5])],
            .abortedRun)) :=
  ⟨by decide,
    C8_exclusive_create_no_overwrite
      (FileSys.mk [("noise_recordings/mic/beep_x1.flac", [5])])
      "noise_recordings/mic/beep_x1.flac" (by decide)⟩

/-- The regex character class `[a-zA-Z0-9]` — the complement of what
`re.sub("[^a-zA-Z0-9]+", "_", ...)` (line 55) replaces. -/
def isAlnumAscii (c : Char) : Bool :=
  ('a' ≤ c && c ≤ 'z') || ('A' ≤ c && c ≤ 'Z') || ('0' ≤ c && c ≤ '9')

theorem dropWhile_length_le {α : Type} (p : α → Bool) (l : List α) :
    (l.dropWhile p).length ≤ l.length := by
  induction l with
  | nil => simp
  | cons a l ih =>
    by_cases h : p a
    · rw [List.dropWhile_cons_of_pos h]
      exact Nat.le_succ_of_le ih
    · rw [List.dropWhile_cons_of_neg h]

/-- `re.sub("[^a-zA-Z0-9]+", "_", s)` on the characters of `s`: the regex
engine scans left to right; `+` is greedy, so each match is a maximal run
of characters outside the class, and each match is replaced by one
underscore. -/
def reSubNonAlnum : List Char → List Char
  | [] => []
  | c :: cs =>
    if isAlnumAscii c then c :: reSubNonAlnum cs
    else '_' :: reSubNonAlnum (cs.dropWhile (fun d => !isAlnumAscii d))
termination_by l => l.length
decreasing_by
  all_goals simp_wf
  all_goals first
    | exact Nat.lt_succ_self _
    | exact Nat.lt_succ_of_le (dropWhile_length_le _ _)

/-- Lines 55-57: `mic_directory = re.sub(...)`, truncated to its first 40
characters when longer than 40. -/
def micDirectoryOf (deviceName : List Char) : List Char :=
  if (reSubNonAlnum deviceName).length > 40 then
    (reSubNonAlnum deviceName).take 40
  else reSubNonAlnum deviceName

/-- The spec's formulation, built independently of `re.sub`: split the
name into maximal runs of characters agreeing on alphanumericity. -/
def charRuns : List Char → List (List Char)
  | [] => []
  | c :: cs =>
    ((c :: cs).takeWhile (fun d => isAlnumAscii d == isAlnumAscii c)) ::
      charRuns ((c :: cs).dropWhile (fun d => isAlnumAscii d == isAlnumAscii c))
termination_by l => l.length
decreasing_by
  simp_wf
  exact Nat.lt_succ_of_le (dropWhile_length_le _ _)

/-- The spec's directory name: every maximal run of non-alphanumeric
characters replaced by a single separator character, then truncated to at
most 40 characters. -/
def specDirName (deviceName : List Char) : List Char :=
  (((charRuns deviceName).map
      (fun run => if run.all isAlnumAscii then run else ['_'])).flatten).take 40

theorem reSub_alnum_split (s : List Char) :
    reSubNonAlnum s
      = s.takeWhile isAlnumAscii
        ++ reSubNonAlnum (s.dropWhile isAlnumAscii) := by
  induction s with
  | nil => rfl
  | cons c cs ih =>
    by_cases h : isAlnumAscii c
    · rw [List.takeWhile_cons_of_pos h, List.dropWhile_cons_of_pos h]
      simp only [reSubNonAlnum]
      rw [if_pos h, ih]
      rfl
    · rw [List.takeWhile_cons_of_neg h, List.dropWhile_cons_of_neg h]
      rfl

theorem reSub_eq_runs (s : List Char) :
    reSubNonAlnum s = ((charRuns s).map
      (fun run => if run.all isAlnumAscii then run else ['_'])).flatten := by
  generalize hn : s.length = n
  induction n using Nat.strong_induction_on generalizing s with
  | _ n ihn =>
    cases s with
    | nil => simp [reSubNonAlnum, charRuns]
    | cons c cs =>
      subst hn
      simp only [charRuns]
      cases h : isAlnumAscii c with
      | true =>
        have hpred : (fun d => isAlnumAscii d == true) = isAlnumAscii := by
          funext d
          simp
        rw [hpred]
        have hlt : (cs.dropWhile isAlnumAscii).length < (c :: cs).length :=
          Nat.lt_succ_of_le (dropWhile_length_le _ _)
        have ih := ihn _ hlt (cs.dropWhile isAlnumAscii) rfl
        rw [List.takeWhile_cons_of_pos h, List.dropWhile_cons_of_pos h]
        have hall : ((c :: cs.takeWhile isAlnumAscii).all isAlnumAscii)
            = true := by
          simp [h]
        rw [List.map_cons, List.flatten_cons, if_pos hall, ← ih]
        simp only [reSubNonAlnum]
        rw [if_pos h, reSub_alnum_split cs]
        rfl
      | false =>
        have hpred : (fun d => isAlnumAscii d == false)
            = (fun d => !isAlnumAscii d) := by
          funext d
          simp
        have hcp : (!isAlnumAscii c) = true := by simp [h]
        rw [hpred]
        have hlt : (cs.dropWhile (fun d => !isAlnumAscii d)).length
            < (c :: cs).length :=
          Nat.lt_succ_of_le (dropWhile_length_le _ _)
        have ih := ihn _ hlt (cs.dropWhile (fun d => !isAlnumAscii d)) rfl
        rw [List.takeWhile_cons_of_pos (p := fun d => !isAlnumAscii d) hcp,
          List.dropWhile_cons_of_pos (p := fun d => !isAlnumAscii d) hcp]
        have hallf : ¬(((c :: cs.takeWhile (fun d => !isAlnumAscii d)).all
            isAlnumAscii) = true) := by
          simp [h]
        rw [List.map_cons, List.flatten_cons, if_neg hallf, ← ih]
        simp only [reSubNonAlnum]
        rw [if_neg (by simp [h])]
        rfl

theorem micDirectoryOf_eq_take (s : List Char) :
    micDirectoryOf s = (reSubNonAlnum s).take 40 := by
  unfold micDirectoryOf
  by_cases h : (reSubNonAlnum s).length > 40
  · rw [if_pos h]
  · rw [if_neg h, List.take_of_length_le (Nat.le_of_not_lt h)]

/-- C7: the per-device directory name computed at lines 55-57 equals the
device display name with every maximal run of non-alphanumeric characters
replaced by a single separator character and the result truncated to at
most 40 characters; in particular its length never exceeds 40. -/
theorem C7_directory_name_sanitization (deviceName : List Char) :
    micDirectoryOf deviceName = specDirName deviceName ∧
    (micDirectoryOf deviceName).length ≤ 40 := by
  have h1 := micDirectoryOf_eq_take deviceName
  constructor
  · rw [h1, reSub_eq_runs]
    rfl
  · rw [h1]
    exact (reSubNonAlnum deviceName).length_take_le 40

end NoiseRecorder
